import Mathlib

/-!
Verification of the CartPole dynamics engine (`task3.py`).

The engine is shallowly embedded over the real numbers.  Randomness is
modelled by two explicit draw streams, matching the two distinct random
sources the code consumes:

* `seeded` — the draws produced by the instance's seeded generator
  `self.np_random` (used for the construction-time force-magnitude
  perturbation, the four `reset` draws, and the per-step angle noise).
  Each raw draw is a unit-interval sample `u`; `uniform(low, high)`
  returns `low + (high - low) * u`.
* `glob` — the draws produced by the process-global `np.random.randn()`
  (used for the three per-step standard-normal coefficient jitters).
  Each draw is the raw standard-normal sample, an arbitrary real.

Counters `sIdx` and `gIdx` record how many draws of each stream have
been consumed, so successive draws are successive, distinct stream
positions.
-/

namespace CartPole

/-- The value of `np_random.uniform(low, high)` at a raw unit sample `u`. -/
noncomputable def uniformDraw (low high u : ℝ) : ℝ := low + (high - low) * u

/-- The simulation parameters stored on the environment object at
construction (`__init__`). -/
structure Params where
  gravity : ℝ
  masscart : ℝ
  masspole : ℝ
  total_mass : ℝ
  length : ℝ
  polemass_length : ℝ
  force_mag : ℝ
  tau : ℝ
  frictioncart : ℝ
  frictionpole : ℝ
  gravity_eps : ℝ
  frictioncart_eps : ℝ
  frictionpole_eps : ℝ
  theta_threshold_radians : ℝ
  x_threshold : ℝ

/-- The parameter block built by `__init__`: `u0` is the raw unit sample
consumed by the construction-time draw
`force_mag = 10.0*(1+self.np_random.uniform(low=-0.30, high=0.30))`. -/
noncomputable def mkParams (u0 : ℝ) : Params :=
  let gravity : ℝ := 9.8
  let masscart : ℝ := 1.0
  let masspole : ℝ := 0.4
  let total_mass : ℝ := masspole + masscart
  let length : ℝ := 0.5
  let polemass_length : ℝ := masspole * length
  { gravity := gravity
    masscart := masscart
    masspole := masspole
    total_mass := total_mass
    length := length
    polemass_length := polemass_length
    force_mag := 10.0 * (1 + uniformDraw (-0.30) 0.30 u0)
    tau := 0.02
    frictioncart := 5e-4
    frictionpole := 2e-6
    gravity_eps := 0.99
    frictioncart_eps := 0.99
    frictionpole_eps := 0.99
    theta_threshold_radians := 12 * 2 * Real.pi / 360
    x_threshold := 2.4 }

/-- The mutable part of a `CartPoleEnv` instance: the episode state
(`None` before the first `reset`) and the over-stepping counter. -/
structure Env where
  params : Params
  state : Option (ℝ × ℝ × ℝ × ℝ)
  steps_beyond_done : Option ℕ

/-- The two random sources together with their consumption counters. -/
structure RNG where
  seeded : ℕ → ℝ
  glob : ℕ → ℝ
  sIdx : ℕ
  gIdx : ℕ

/-- Failures of `step`: the `assert` on the action space, and the
`TypeError` raised by unpacking `self.state` while it is still `None`. -/
inductive StepErr where
  | invalidAction : StepErr
  | uninitialized : StepErr
deriving DecidableEq

/-- The result of a successful `step` call: the mutated environment, the
advanced random sources, and the returned `(observation, reward, done)`
triple (the info dict is always empty and is omitted). -/
structure StepOut where
  env : Env
  rng : RNG
  obs : ℝ × ℝ × ℝ × ℝ
  reward : ℝ
  done : Prop

/-- The termination predicate of `step` on the post-update state:
`x < -x_threshold or x > x_threshold or theta < -theta_threshold_radians
or theta > theta_threshold_radians`. -/
def doneProp (p : Params) (x theta : ℝ) : Prop :=
  x < -p.x_threshold ∨ x > p.x_threshold ∨
    theta < -p.theta_threshold_radians ∨ theta > p.theta_threshold_radians

/-- The quantity `temp` of `step` (translational-acceleration numerator), with `g1`
the raw normal sample of the cart-friction jitter. -/
noncomputable def tempOf (p : Params) (force x_dot theta_dot sintheta g1 : ℝ) : ℝ :=
  (force + p.polemass_length * theta_dot * theta_dot * sintheta -
      p.frictioncart * (4 + p.frictioncart_eps * g1) * Real.sign x_dot) / p.total_mass

/-- The quantity `thetaacc` of `step`, with `g2` and `g3` the raw normal samples of the
gravity and pole-friction jitters. -/
noncomputable def thetaaccOf (p : Params) (temp theta_dot costheta sintheta g2 g3 : ℝ) : ℝ :=
  (p.gravity * (4 + p.gravity_eps * g2) * sintheta - costheta * temp -
      p.frictionpole * (4 + p.frictionpole_eps * g3) * theta_dot / p.polemass_length) /
    (p.length * (4.0 / 3.0 - p.masspole * costheta * costheta / p.total_mass))

/-- The quantity `xacc` of `step`. -/
noncomputable def xaccOf (p : Params) (temp thetaacc costheta : ℝ) : ℝ :=
  temp - p.polemass_length * thetaacc * costheta / p.total_mass

/-- Lines 64-78 of `step`: the force, the trig terms, the three global
normal draws, the accelerations, the seeded noise draw and the Euler
update, producing the post-update state `(x, x_dot, theta, theta_dot)`.
`g1`, `g2`, `g3` are the successive `np.random.randn()` draws (cart
friction, gravity, pole friction, in evaluation order) and the noise is
the one seeded uniform draw of the call. -/
noncomputable def stepPost (p : Params) (rng : RNG) (x x_dot theta theta_dot : ℝ)
    (action : ℤ) : ℝ × ℝ × ℝ × ℝ :=
  let force := if action = 1 then p.force_mag else -p.force_mag
  let costheta := Real.cos theta
  let sintheta := Real.sin theta
  let g1 := rng.glob rng.gIdx
  let g2 := rng.glob (rng.gIdx + 1)
  let g3 := rng.glob (rng.gIdx + 2)
  let temp := tempOf p force x_dot theta_dot sintheta g1
  let thetaacc := thetaaccOf p temp theta_dot costheta sintheta g2 g3
  let xacc := xaccOf p temp thetaacc costheta
  let noise := uniformDraw (-0.30) 0.30 (rng.seeded rng.sIdx)
  (x + p.tau * x_dot, x_dot + p.tau * xacc,
    (theta + p.tau * theta_dot) * (1 + noise), theta_dot + p.tau * thetaacc)

/-- The random-source counters after one `step` call: one seeded draw
(the angle noise) and three global draws (the coefficient jitters). -/
def rngStep (rng : RNG) : RNG :=
  { rng with sIdx := rng.sIdx + 1, gIdx := rng.gIdx + 3 }

open Classical in
/-- One `step(action)` call.  The `assert` on
`self.action_space.contains(action)` (the actions of `Discrete(2)` are
exactly `0` and `1`) precedes everything; unpacking a `None` state fails
next; then the update of `stepPost`, the termination test and the reward
bookkeeping follow the source line by line. -/
noncomputable def step (env : Env) (rng : RNG) (action : ℤ) : Except StepErr StepOut :=
  if action = 0 ∨ action = 1 then
    match env.state with
    | none => .error .uninitialized
    | some (x, x_dot, theta, theta_dot) =>
      let p := env.params
      let st' := stepPost p rng x x_dot theta theta_dot action
      if doneProp p st'.1 st'.2.2.1 then
        match env.steps_beyond_done with
        | none =>
          .ok { env := { env with state := some st', steps_beyond_done := some 0 }
                rng := rngStep rng, obs := st', reward := 1.0,
                done := doneProp p st'.1 st'.2.2.1 }
        | some n =>
          .ok { env := { env with state := some st', steps_beyond_done := some (n + 1) }
                rng := rngStep rng, obs := st', reward := 0.0,
                done := doneProp p st'.1 st'.2.2.1 }
      else
        .ok { env := { env with state := some st' }
              rng := rngStep rng, obs := st', reward := 1.0,
              done := doneProp p st'.1 st'.2.2.1 }
  else .error .invalidAction

/-- The `reset()` call: four fresh seeded uniform draws in `[-0.05, 0.05]`, the
over-stepping counter cleared, the new state returned. -/
noncomputable def reset (env : Env) (rng : RNG) : Env × RNG × (ℝ × ℝ × ℝ × ℝ) :=
  let v0 := uniformDraw (-0.05) 0.05 (rng.seeded rng.sIdx)
  let v1 := uniformDraw (-0.05) 0.05 (rng.seeded (rng.sIdx + 1))
  let v2 := uniformDraw (-0.05) 0.05 (rng.seeded (rng.sIdx + 2))
  let v3 := uniformDraw (-0.05) 0.05 (rng.seeded (rng.sIdx + 3))
  ({ env with state := some (v0, v1, v2, v3), steps_beyond_done := none },
    { rng with sIdx := rng.sIdx + 4 }, (v0, v1, v2, v3))

/-- The constructor `__init__`: seeds, consumes one seeded draw for `force_mag`, and
starts with `state = None`, `steps_beyond_done = None`. -/
noncomputable def mkEnv (rng : RNG) : Env × RNG :=
  ({ params := mkParams (rng.seeded rng.sIdx), state := none, steps_beyond_done := none },
    { rng with sIdx := rng.sIdx + 1 })

/-- A run: the successive `step` calls on an action list, aborting if any
call fails. -/
noncomputable def run (env : Env) (rng : RNG) :
    List ℤ → Option (List StepOut × Env × RNG)
  | [] => some ([], env, rng)
  | a :: rest =>
    match step env rng a with
    | .error _ => none
    | .ok out =>
      match run out.env out.rng rest with
      | none => none
      | some (outs, e, r) => some (out :: outs, e, r)

/-! ### Evaluation lemmas for `step` -/

/-- A valid `step` call whose post-update state is not terminal: reward
`1.0`, counter untouched. -/
theorem step_eval_not_done (env : Env) (rng : RNG) (a : ℤ) (x x_dot theta theta_dot : ℝ)
    (hv : a = 0 ∨ a = 1) (hs : env.state = some (x, x_dot, theta, theta_dot))
    (hnd : ¬ doneProp env.params (stepPost env.params rng x x_dot theta theta_dot a).1
      (stepPost env.params rng x x_dot theta theta_dot a).2.2.1) :
    step env rng a = .ok
      { env := { env with state := some (stepPost env.params rng x x_dot theta theta_dot a) }
        rng := rngStep rng
        obs := stepPost env.params rng x x_dot theta theta_dot a
        reward := 1.0
        done := doneProp env.params (stepPost env.params rng x x_dot theta theta_dot a).1
          (stepPost env.params rng x x_dot theta theta_dot a).2.2.1 } := by
  unfold step
  rw [if_pos hv, hs]
  simp only
  rw [if_neg hnd]

/-- A valid `step` call whose post-update state is terminal while the
counter is still inactive: reward `1.0`, counter set to `0`. -/
theorem step_eval_first_done (env : Env) (rng : RNG) (a : ℤ) (x x_dot theta theta_dot : ℝ)
    (hv : a = 0 ∨ a = 1) (hs : env.state = some (x, x_dot, theta, theta_dot))
    (hb : env.steps_beyond_done = none)
    (hd : doneProp env.params (stepPost env.params rng x x_dot theta theta_dot a).1
      (stepPost env.params rng x x_dot theta theta_dot a).2.2.1) :
    step env rng a = .ok
      { env := { env with state := some (stepPost env.params rng x x_dot theta theta_dot a), steps_beyond_done := some 0 }
        rng := rngStep rng
        obs := stepPost env.params rng x x_dot theta theta_dot a
        reward := 1.0
        done := doneProp env.params (stepPost env.params rng x x_dot theta theta_dot a).1
          (stepPost env.params rng x x_dot theta theta_dot a).2.2.1 } := by
  unfold step
  rw [if_pos hv, hs]
  simp only
  rw [if_pos hd, hb]

/-- A valid `step` call whose post-update state is terminal while the
counter is already active: reward `0.0`, counter incremented. -/
theorem step_eval_again_done (env : Env) (rng : RNG) (a : ℤ) (x x_dot theta theta_dot : ℝ)
    (n : ℕ) (hv : a = 0 ∨ a = 1) (hs : env.state = some (x, x_dot, theta, theta_dot))
    (hb : env.steps_beyond_done = some n)
    (hd : doneProp env.params (stepPost env.params rng x x_dot theta theta_dot a).1
      (stepPost env.params rng x x_dot theta theta_dot a).2.2.1) :
    step env rng a = .ok
      { env := { env with state := some (stepPost env.params rng x x_dot theta theta_dot a), steps_beyond_done := some (n + 1) }
        rng := rngStep rng
        obs := stepPost env.params rng x x_dot theta theta_dot a
        reward := 0.0
        done := doneProp env.params (stepPost env.params rng x x_dot theta theta_dot a).1
          (stepPost env.params rng x x_dot theta theta_dot a).2.2.1 } := by
  unfold step
  rw [if_pos hv, hs]
  simp only
  rw [if_pos hd, hb]

/-! ### Canonical concrete instances used by the witnesses -/

/-- Parameters with the construction draw at mid-range: `force_mag = 10`. -/
noncomputable def cParams : Params := mkParams (1 / 2)

/-- A concrete random source: every seeded unit draw is `1/2` (every
uniform draw lands on the interval midpoint, i.e. `0` noise) and every
global normal draw is `0`. -/
noncomputable def cRng : RNG := ⟨fun _ => 1 / 2, fun _ => 0, 0, 0⟩

/-- A concrete environment whose episode state is the origin. -/
noncomputable def cEnv : Env := ⟨cParams, some (0, 0, 0, 0), none⟩

/-- A concrete environment on which `reset` has never been called. -/
noncomputable def cEnvFresh : Env := ⟨cParams, none, none⟩

/-! ### C4: invalid actions are rejected before anything happens -/

/-- C4 — Invalid-action atomicity: for every action outside `{0, 1}` and
every engine state, `step` fails with the invalid-action error; the
`assert` precedes every state mutation and every random draw, so the
call returns no mutated environment and no advanced random source. -/
theorem step_invalid_action_rejected (env : Env) (rng : RNG) (a : ℤ)
    (h : ¬(a = 0 ∨ a = 1)) : step env rng a = .error .invalidAction := by
  unfold step
  rw [if_neg h]

/-- Witness for C4 at the concrete action `2`. -/
theorem step_invalid_action_rejected_w :
    step cEnv cRng 2 = .error .invalidAction :=
  step_invalid_action_rejected cEnv cRng 2 (by decide)

/-! ### C5: step before any reset fails fast -/

/-- C5 — Uninitialized-state precondition: a valid action given to an
engine whose state is still the initial `None` makes `step` fail (the
unpacking of `self.state` raises) before any transition is computed. -/
theorem step_before_reset_fails (env : Env) (rng : RNG) (a : ℤ)
    (hv : a = 0 ∨ a = 1) (hs : env.state = none) :
    step env rng a = .error .uninitialized := by
  unfold step
  rw [if_pos hv, hs]

/-- Witness for C5 on a freshly constructed environment. -/
theorem step_before_reset_fails_w :
    step cEnvFresh cRng 0 = .error .uninitialized :=
  step_before_reset_fails cEnvFresh cRng 0 (Or.inl rfl) rfl

/-! ### C3: the termination predicate is strict at the thresholds -/

/-- C3 — Boundary strictness: the predicate `step` applies to the
post-update state is exactly the strict-inequality test against
`x_threshold = 2.4` and `theta_threshold_radians = 12·2·π/360`; a state
with a coordinate exactly at a threshold (the other coordinate in range)
is NOT done, and a state strictly beyond any threshold is done. -/
theorem done_classification_boundary_strict (u0 x theta : ℝ) :
    (doneProp (mkParams u0) x theta ↔
      (x < -2.4 ∨ x > 2.4 ∨ theta < -(12 * 2 * Real.pi / 360) ∨
        theta > 12 * 2 * Real.pi / 360))
    ∧ ((x = 2.4 ∨ x = -2.4) → -(12 * 2 * Real.pi / 360) ≤ theta →
        theta ≤ 12 * 2 * Real.pi / 360 → ¬doneProp (mkParams u0) x theta)
    ∧ ((theta = 12 * 2 * Real.pi / 360 ∨ theta = -(12 * 2 * Real.pi / 360)) →
        -2.4 ≤ x → x ≤ 2.4 → ¬doneProp (mkParams u0) x theta)
    ∧ ((x > 2.4 ∨ x < -2.4 ∨ theta > 12 * 2 * Real.pi / 360 ∨
        theta < -(12 * 2 * Real.pi / 360)) → doneProp (mkParams u0) x theta) := by
  have hx : (mkParams u0).x_threshold = 2.4 := rfl
  have ht : (mkParams u0).theta_threshold_radians = 12 * 2 * Real.pi / 360 := rfl
  unfold doneProp
  rw [hx, ht]
  refine ⟨Iff.rfl, ?_, ?_, ?_⟩
  · rintro (h | h) h1 h2 <;> subst h <;> push_neg <;>
      exact ⟨by norm_num, by norm_num, by linarith, by linarith⟩
  · rintro (h | h) h1 h2 <;> subst h <;> push_neg <;>
      exact ⟨by linarith, by linarith, by linarith [Real.pi_pos], by linarith [Real.pi_pos]⟩
  · rintro (h | h | h | h)
    · exact Or.inr (Or.inl h)
    · exact Or.inl h
    · exact Or.inr (Or.inr (Or.inr h))
    · exact Or.inr (Or.inr (Or.inl h))

/-- Witness for C3: `x = 2.4` exactly is not done, one step beyond
(`x = 2.5`) is done. -/
theorem done_classification_boundary_strict_w :
    ¬doneProp (mkParams (1 / 2)) 2.4 0 ∧ doneProp (mkParams (1 / 2)) 2.5 0 :=
  ⟨(done_classification_boundary_strict (1 / 2) 2.4 0).2.1 (Or.inl rfl)
      (by linarith [Real.pi_pos]) (by linarith [Real.pi_pos]),
    (done_classification_boundary_strict (1 / 2) 2.5 0).2.2.2 (Or.inl (by norm_num))⟩

/-! ### C6: reset postcondition -/

/-- A uniform draw from a unit sample lands in the requested interval. -/
theorem uniformDraw_mem (low high u : ℝ) (hlh : low ≤ high) (hu : u ∈ Set.Icc (0 : ℝ) 1) :
    uniformDraw low high u ∈ Set.Icc low high := by
  obtain ⟨h0, h1⟩ := hu
  unfold uniformDraw
  constructor
  · nlinarith
  · nlinarith

/-- C6 — Reset postcondition: `reset` always succeeds (it is a total
function), draws the 4 state components from four successive — hence
independent — seeded uniform draws over `[-0.05, 0.05]`, each component
landing in `[-0.05, 0.05]`, clears `steps_beyond_done` to the inactive
value, and returns the newly drawn state as the observation. -/
theorem reset_postcondition (env : Env) (rng : RNG)
    (h0 : rng.seeded rng.sIdx ∈ Set.Icc (0 : ℝ) 1)
    (h1 : rng.seeded (rng.sIdx + 1) ∈ Set.Icc (0 : ℝ) 1)
    (h2 : rng.seeded (rng.sIdx + 2) ∈ Set.Icc (0 : ℝ) 1)
    (h3 : rng.seeded (rng.sIdx + 3) ∈ Set.Icc (0 : ℝ) 1) :
    ∃ v0 v1 v2 v3 : ℝ,
      reset env rng =
        ({ env with state := some (v0, v1, v2, v3), steps_beyond_done := none },
          { rng with sIdx := rng.sIdx + 4 }, (v0, v1, v2, v3)) ∧
      v0 = uniformDraw (-0.05) 0.05 (rng.seeded rng.sIdx) ∧
      v1 = uniformDraw (-0.05) 0.05 (rng.seeded (rng.sIdx + 1)) ∧
      v2 = uniformDraw (-0.05) 0.05 (rng.seeded (rng.sIdx + 2)) ∧
      v3 = uniformDraw (-0.05) 0.05 (rng.seeded (rng.sIdx + 3)) ∧
      v0 ∈ Set.Icc (-0.05 : ℝ) 0.05 ∧ v1 ∈ Set.Icc (-0.05 : ℝ) 0.05 ∧
      v2 ∈ Set.Icc (-0.05 : ℝ) 0.05 ∧ v3 ∈ Set.Icc (-0.05 : ℝ) 0.05 :=
  ⟨_, _, _, _, rfl, rfl, rfl, rfl, rfl,
    uniformDraw_mem _ _ _ (by norm_num) h0, uniformDraw_mem _ _ _ (by norm_num) h1,
    uniformDraw_mem _ _ _ (by norm_num) h2, uniformDraw_mem _ _ _ (by norm_num) h3⟩

/-- Witness for C6 at the canonical environment and source. -/
theorem reset_postcondition_w :
    ∃ v0 v1 v2 v3 : ℝ,
      reset cEnv cRng =
        ({ cEnv with state := some (v0, v1, v2, v3), steps_beyond_done := none },
          { cRng with sIdx := cRng.sIdx + 4 }, (v0, v1, v2, v3)) ∧
      v0 = uniformDraw (-0.05) 0.05 (cRng.seeded cRng.sIdx) ∧
      v1 = uniformDraw (-0.05) 0.05 (cRng.seeded (cRng.sIdx + 1)) ∧
      v2 = uniformDraw (-0.05) 0.05 (cRng.seeded (cRng.sIdx + 2)) ∧
      v3 = uniformDraw (-0.05) 0.05 (cRng.seeded (cRng.sIdx + 3)) ∧
      v0 ∈ Set.Icc (-0.05 : ℝ) 0.05 ∧ v1 ∈ Set.Icc (-0.05 : ℝ) 0.05 ∧
      v2 ∈ Set.Icc (-0.05 : ℝ) 0.05 ∧ v3 ∈ Set.Icc (-0.05 : ℝ) 0.05 :=
  reset_postcondition cEnv cRng (by constructor <;> norm_num [cRng])
    (by constructor <;> norm_num [cRng]) (by constructor <;> norm_num [cRng])
    (by constructor <;> norm_num [cRng])

/-! ### C7: the Euler integration step -/

/-- C7 — Euler integration: a valid `step` computes the post-state by one
explicit Euler slice with `tau = 0.02`: the position uses the old
velocity, both velocities add `tau` times their acceleration, and the
multiplicative noise — one seeded uniform draw in `[-0.30, 0.30]` — is
applied to the already-updated angle and not to the angular velocity. -/
theorem step_euler_update (env : Env) (rng : RNG) (a : ℤ) (u0 x x_dot theta theta_dot : ℝ)
    (hp : env.params = mkParams u0) (hv : a = 0 ∨ a = 1)
    (hs : env.state = some (x, x_dot, theta, theta_dot))
    (hu : rng.seeded rng.sIdx ∈ Set.Icc (0 : ℝ) 1) :
    ∃ out temp thetaacc xacc noise,
      step env rng a = .ok out ∧
      temp = tempOf env.params (if a = 1 then env.params.force_mag else -env.params.force_mag)
        x_dot theta_dot (Real.sin theta) (rng.glob rng.gIdx) ∧
      thetaacc = thetaaccOf env.params temp theta_dot (Real.cos theta) (Real.sin theta)
        (rng.glob (rng.gIdx + 1)) (rng.glob (rng.gIdx + 2)) ∧
      xacc = xaccOf env.params temp thetaacc (Real.cos theta) ∧
      noise = uniformDraw (-0.30) 0.30 (rng.seeded rng.sIdx) ∧
      noise ∈ Set.Icc (-0.30 : ℝ) 0.30 ∧
      env.params.tau = 0.02 ∧
      out.obs = (x + 0.02 * x_dot, x_dot + 0.02 * xacc,
        (theta + 0.02 * theta_dot) * (1 + noise), theta_dot + 0.02 * thetaacc) ∧
      out.env.state = some out.obs := by
  have htau : env.params.tau = 0.02 := by rw [hp]; rfl
  have hmem : uniformDraw (-0.30) 0.30 (rng.seeded rng.sIdx) ∈ Set.Icc (-0.30 : ℝ) 0.30 :=
    uniformDraw_mem _ _ _ (by norm_num) hu
  have hpost : stepPost env.params rng x x_dot theta theta_dot a =
      (x + 0.02 * x_dot,
        x_dot + 0.02 * xaccOf env.params
          (tempOf env.params (if a = 1 then env.params.force_mag else -env.params.force_mag)
            x_dot theta_dot (Real.sin theta) (rng.glob rng.gIdx))
          (thetaaccOf env.params
            (tempOf env.params (if a = 1 then env.params.force_mag else -env.params.force_mag)
              x_dot theta_dot (Real.sin theta) (rng.glob rng.gIdx))
            theta_dot (Real.cos theta) (Real.sin theta)
            (rng.glob (rng.gIdx + 1)) (rng.glob (rng.gIdx + 2)))
          (Real.cos theta),
        (theta + 0.02 * theta_dot) * (1 + uniformDraw (-0.30) 0.30 (rng.seeded rng.sIdx)),
        theta_dot + 0.02 * thetaaccOf env.params
          (tempOf env.params (if a = 1 then env.params.force_mag else -env.params.force_mag)
            x_dot theta_dot (Real.sin theta) (rng.glob rng.gIdx))
          theta_dot (Real.cos theta) (Real.sin theta)
          (rng.glob (rng.gIdx + 1)) (rng.glob (rng.gIdx + 2))) := by
    unfold stepPost
    rw [htau]
  by_cases hd : doneProp env.params (stepPost env.params rng x x_dot theta theta_dot a).1
      (stepPost env.params rng x x_dot theta theta_dot a).2.2.1
  · cases hb : env.steps_beyond_done with
    | none =>
      exact ⟨_, _, _, _, _, step_eval_first_done env rng a x x_dot theta theta_dot hv hs hb hd,
        rfl, rfl, rfl, rfl, hmem, htau, hpost, rfl⟩
    | some n =>
      exact ⟨_, _, _, _, _, step_eval_again_done env rng a x x_dot theta theta_dot n hv hs hb hd,
        rfl, rfl, rfl, rfl, hmem, htau, hpost, rfl⟩
  · exact ⟨_, _, _, _, _, step_eval_not_done env rng a x x_dot theta theta_dot hv hs hd,
      rfl, rfl, rfl, rfl, hmem, htau, hpost, rfl⟩

/-- Witness for C7 at the canonical call. -/
theorem step_euler_update_w :
    ∃ out temp thetaacc xacc noise,
      step cEnv cRng 1 = .ok out ∧
      temp = tempOf cEnv.params (if (1 : ℤ) = 1 then cEnv.params.force_mag else -cEnv.params.force_mag)
        0 0 (Real.sin 0) (cRng.glob cRng.gIdx) ∧
      thetaacc = thetaaccOf cEnv.params temp 0 (Real.cos 0) (Real.sin 0)
        (cRng.glob (cRng.gIdx + 1)) (cRng.glob (cRng.gIdx + 2)) ∧
      xacc = xaccOf cEnv.params temp thetaacc (Real.cos 0) ∧
      noise = uniformDraw (-0.30) 0.30 (cRng.seeded cRng.sIdx) ∧
      noise ∈ Set.Icc (-0.30 : ℝ) 0.30 ∧
      cEnv.params.tau = 0.02 ∧
      out.obs = ((0 : ℝ) + 0.02 * 0, 0 + 0.02 * xacc,
        ((0 : ℝ) + 0.02 * 0) * (1 + noise), 0 + 0.02 * thetaacc) ∧
      out.env.state = some out.obs :=
  step_euler_update cEnv cRng 1 (1 / 2) 0 0 0 0 rfl (Or.inr rfl) rfl
    (by constructor <;> norm_num [cRng])

/-! ### Projection values of the constructed parameters -/

theorem mkParams_gravity (u0 : ℝ) : (mkParams u0).gravity = 9.8 := rfl

theorem mkParams_masscart (u0 : ℝ) : (mkParams u0).masscart = 1.0 := rfl

theorem mkParams_masspole (u0 : ℝ) : (mkParams u0).masspole = 0.4 := rfl

theorem mkParams_total_mass (u0 : ℝ) : (mkParams u0).total_mass = 0.4 + 1.0 := rfl

theorem mkParams_length (u0 : ℝ) : (mkParams u0).length = 0.5 := rfl

theorem mkParams_polemass_length (u0 : ℝ) :
    (mkParams u0).polemass_length = 0.4 * 0.5 := rfl

theorem mkParams_force_mag (u0 : ℝ) :
    (mkParams u0).force_mag = 10.0 * (1 + uniformDraw (-0.30) 0.30 u0) := rfl

theorem mkParams_tau (u0 : ℝ) : (mkParams u0).tau = 0.02 := rfl

theorem mkParams_frictioncart (u0 : ℝ) : (mkParams u0).frictioncart = 5e-4 := rfl

theorem mkParams_frictionpole (u0 : ℝ) : (mkParams u0).frictionpole = 2e-6 := rfl

theorem mkParams_gravity_eps (u0 : ℝ) : (mkParams u0).gravity_eps = 0.99 := rfl

theorem mkParams_frictioncart_eps (u0 : ℝ) : (mkParams u0).frictioncart_eps = 0.99 := rfl

theorem mkParams_frictionpole_eps (u0 : ℝ) : (mkParams u0).frictionpole_eps = 0.99 := rfl

theorem mkParams_theta_threshold (u0 : ℝ) :
    (mkParams u0).theta_threshold_radians = 12 * 2 * Real.pi / 360 := rfl

theorem mkParams_x_threshold (u0 : ℝ) : (mkParams u0).x_threshold = 2.4 := rfl

/-! ### Inversion of a successful step -/

/-- A valid `step` call on an initialized state always succeeds, with the
post-update state of `stepPost` stored, observed, and the sources
advanced. -/
theorem step_ok_exists (env : Env) (rng : RNG) (a : ℤ) (x x_dot theta theta_dot : ℝ)
    (hv : a = 0 ∨ a = 1) (hs : env.state = some (x, x_dot, theta, theta_dot)) :
    ∃ out, step env rng a = .ok out ∧
      out.obs = stepPost env.params rng x x_dot theta theta_dot a ∧
      out.env.state = some out.obs ∧ out.rng = rngStep rng ∧
      out.env.params = env.params := by
  by_cases hd : doneProp env.params (stepPost env.params rng x x_dot theta theta_dot a).1
      (stepPost env.params rng x x_dot theta theta_dot a).2.2.1
  · cases hb : env.steps_beyond_done with
    | none =>
      exact ⟨_, step_eval_first_done env rng a x x_dot theta theta_dot hv hs hb hd,
        rfl, rfl, rfl, rfl⟩
    | some n =>
      exact ⟨_, step_eval_again_done env rng a x x_dot theta theta_dot n hv hs hb hd,
        rfl, rfl, rfl, rfl⟩
  · exact ⟨_, step_eval_not_done env rng a x x_dot theta theta_dot hv hs hd,
      rfl, rfl, rfl, rfl⟩

/-- Inversion: any successful `step` keeps the parameters and falls in
one of the three reward/counter branches of the source. -/
theorem step_ok_cases (env : Env) (rng : RNG) (a : ℤ) (out : StepOut)
    (h : step env rng a = .ok out) :
    out.env.params = env.params ∧
    ((¬out.done ∧ out.reward = 1.0 ∧
        out.env.steps_beyond_done = env.steps_beyond_done) ∨
      (out.done ∧ env.steps_beyond_done = none ∧ out.reward = 1.0 ∧
        out.env.steps_beyond_done = some 0) ∨
      (∃ n, out.done ∧ env.steps_beyond_done = some n ∧ out.reward = 0.0 ∧
        out.env.steps_beyond_done = some (n + 1))) := by
  unfold step at h
  split at h
  · split at h
    · exact absurd h (by simp)
    · rename_i x x_dot theta theta_dot heq
      dsimp only at h
      split at h
      · rename_i hd
        split at h
        · rename_i hb
          injection h with h
          subst h
          exact ⟨rfl, Or.inr (Or.inl ⟨hd, hb, rfl, rfl⟩)⟩
        · rename_i n hb
          injection h with h
          subst h
          exact ⟨rfl, Or.inr (Or.inr ⟨n, hd, hb, rfl, rfl⟩)⟩
      · rename_i hd
        injection h with h
        subst h
        exact ⟨rfl, Or.inl ⟨hd, rfl, rfl⟩⟩
  · exact absurd h (by simp)

/-! ### C8: per-step coefficient jitter -/

/-- C8 — Per-step coefficient jitter: in every valid step, the cart
friction (5e-4), gravity (9.8) and pole friction (2e-6) coefficients
enter the acceleration formulas multiplied by `(4 + eps·g)` where `g` is
that coefficient's own normal draw (the three successive global samples
at positions `gIdx`, `gIdx+1`, `gIdx+2`, hence independent) and the
three eps values are all `0.99`. -/
theorem step_coefficient_jitter (env : Env) (rng : RNG) (a : ℤ) (u0 x x_dot theta theta_dot : ℝ)
    (hp : env.params = mkParams u0) (hv : a = 0 ∨ a = 1)
    (hs : env.state = some (x, x_dot, theta, theta_dot)) :
    env.params.frictioncart_eps = 0.99 ∧ env.params.gravity_eps = 0.99 ∧
    env.params.frictionpole_eps = 0.99 ∧
    ∃ out temp thetaacc,
      step env rng a = .ok out ∧
      temp = ((if a = 1 then env.params.force_mag else -env.params.force_mag) +
          0.2 * theta_dot * theta_dot * Real.sin theta -
          5e-4 * (4 + 0.99 * rng.glob rng.gIdx) * Real.sign x_dot) / 1.4 ∧
      thetaacc = (9.8 * (4 + 0.99 * rng.glob (rng.gIdx + 1)) * Real.sin theta -
          Real.cos theta * temp -
          2e-6 * (4 + 0.99 * rng.glob (rng.gIdx + 2)) * theta_dot / 0.2) /
        (0.5 * (4.0 / 3.0 - 0.4 * Real.cos theta * Real.cos theta / 1.4)) ∧
      out.obs.2.1 = x_dot + 0.02 * (temp - 0.2 * thetaacc * Real.cos theta / 1.4) ∧
      out.obs.2.2.2 = theta_dot + 0.02 * thetaacc := by
  obtain ⟨out, hok, hobs, -, -, -⟩ := step_ok_exists env rng a x x_dot theta theta_dot hv hs
  refine ⟨by rw [hp, mkParams_frictioncart_eps], by rw [hp, mkParams_gravity_eps],
    by rw [hp, mkParams_frictionpole_eps], out, _, _, hok, rfl, rfl, ?_, ?_⟩
  · rw [hobs, hp]
    simp only [stepPost, tempOf, thetaaccOf, xaccOf, uniformDraw, mkParams_gravity,
      mkParams_masspole, mkParams_total_mass, mkParams_length, mkParams_polemass_length,
      mkParams_tau, mkParams_frictioncart, mkParams_frictionpole, mkParams_gravity_eps,
      mkParams_frictioncart_eps, mkParams_frictionpole_eps]
    ring
  · rw [hobs, hp]
    simp only [stepPost, tempOf, thetaaccOf, xaccOf, uniformDraw, mkParams_gravity,
      mkParams_masspole, mkParams_total_mass, mkParams_length, mkParams_polemass_length,
      mkParams_tau, mkParams_frictioncart, mkParams_frictionpole, mkParams_gravity_eps,
      mkParams_frictioncart_eps, mkParams_frictionpole_eps]
    ring

/-- Witness for C8 at the canonical call. -/
theorem step_coefficient_jitter_w :
    cEnv.params.frictioncart_eps = 0.99 ∧ cEnv.params.gravity_eps = 0.99 ∧
    cEnv.params.frictionpole_eps = 0.99 ∧
    ∃ out temp thetaacc,
      step cEnv cRng 1 = .ok out ∧
      temp = ((if (1 : ℤ) = 1 then cEnv.params.force_mag else -cEnv.params.force_mag) +
          0.2 * 0 * 0 * Real.sin 0 -
          5e-4 * (4 + 0.99 * cRng.glob cRng.gIdx) * Real.sign 0) / 1.4 ∧
      thetaacc = (9.8 * (4 + 0.99 * cRng.glob (cRng.gIdx + 1)) * Real.sin 0 -
          Real.cos 0 * temp -
          2e-6 * (4 + 0.99 * cRng.glob (cRng.gIdx + 2)) * 0 / 0.2) /
        (0.5 * (4.0 / 3.0 - 0.4 * Real.cos 0 * Real.cos 0 / 1.4)) ∧
      out.obs.2.1 = 0 + 0.02 * (temp - 0.2 * thetaacc * Real.cos 0 / 1.4) ∧
      out.obs.2.2.2 = 0 + 0.02 * thetaacc :=
  step_coefficient_jitter cEnv cRng 1 (1 / 2) 0 0 0 0 rfl (Or.inr rfl) rfl

/-! ### Canonical concrete step evaluations -/

/-- The post-update state of the canonical call. -/
noncomputable def cSt : ℝ × ℝ × ℝ × ℝ := stepPost cParams cRng 0 0 0 0 1

/-- The canonical call does not terminate the episode. -/
theorem cSt_not_done : ¬doneProp cParams cSt.1 cSt.2.2.1 := by
  have h1 : cSt.1 = 0 := by
    norm_num [cSt, stepPost, cParams, mkParams_tau]
  have h2 : cSt.2.2.1 = 0 := by
    norm_num [cSt, stepPost, cParams, mkParams_tau]
  rw [h1, h2]
  unfold cParams doneProp
  rw [mkParams_x_threshold, mkParams_theta_threshold]
  push_neg
  exact ⟨by norm_num, by norm_num, by linarith [Real.pi_pos], by linarith [Real.pi_pos]⟩

/-- The canonical call's full output. -/
noncomputable def cOut : StepOut :=
  { env := { cEnv with state := some cSt }, rng := rngStep cRng, obs := cSt,
    reward := 1.0, done := doneProp cParams cSt.1 cSt.2.2.1 }

theorem step_cEnv_eval : step cEnv cRng 1 = .ok cOut :=
  step_eval_not_done cEnv cRng 1 0 0 0 0 (Or.inr rfl) rfl cSt_not_done

/-- A concrete environment that has already terminated (cart far out of
bounds) with an active over-stepping counter. -/
noncomputable def cEnvDone : Env := ⟨cParams, some (3, 0, 0, 0), some 0⟩

/-- The post-update state of the canonical already-done call. -/
noncomputable def cStD : ℝ × ℝ × ℝ × ℝ := stepPost cParams cRng 3 0 0 0 1

/-- The canonical already-done call lands beyond the `x` threshold. -/
theorem cStD_done : doneProp cParams cStD.1 cStD.2.2.1 := by
  have h1 : cStD.1 = 3 := by
    norm_num [cStD, stepPost, cParams, mkParams_tau]
  rw [h1]
  unfold cParams doneProp
  rw [mkParams_x_threshold]
  exact Or.inr (Or.inl (by norm_num))

/-- The canonical already-done call's full output. -/
noncomputable def cOutD : StepOut :=
  { env := { cEnvDone with state := some cStD, steps_beyond_done := some 1 },
    rng := rngStep cRng, obs := cStD, reward := 0.0,
    done := doneProp cParams cStD.1 cStD.2.2.1 }

theorem step_cEnvDone_eval : step cEnvDone cRng 1 = .ok cOutD :=
  step_eval_again_done cEnvDone cRng 1 3 0 0 0 0 (Or.inr rfl) rfl rfl cStD_done

/-! ### Facts about whole runs -/

/-- A run never changes the stored parameters. -/
theorem run_params_eq (acts : List ℤ) : ∀ (env : Env) (rng : RNG) outs env' rng',
    run env rng acts = some (outs, env', rng') → env'.params = env.params := by
  induction acts with
  | nil =>
    intro env rng outs env' rng' h
    unfold run at h
    simp only [Option.some.injEq, Prod.mk.injEq] at h
    rw [← h.2.1]
  | cons a rest ih =>
    intro env rng outs env' rng' h
    unfold run at h
    split at h
    · exact absurd h (by simp)
    · rename_i out hstep
      split at h
      · exact absurd h (by simp)
      · rename_i outs0 e r hrun
        simp only [Option.some.injEq, Prod.mk.injEq] at h
        rw [← h.2.1, ih out.env out.rng outs0 e r hrun,
          (step_ok_cases env rng a out hstep).1]

/-- One successful step never clears the active counter and never
decreases it. -/
theorem step_sbd_mono (env : Env) (rng : RNG) (a : ℤ) (out : StepOut) (n : ℕ)
    (h : step env rng a = .ok out) (hb : env.steps_beyond_done = some n) :
    ∃ m, out.env.steps_beyond_done = some m ∧ n ≤ m := by
  obtain ⟨-, hc⟩ := step_ok_cases env rng a out h
  rcases hc with ⟨-, -, hbb⟩ | ⟨-, hnone, -, -⟩ | ⟨k, -, hk, -, hbb⟩
  · exact ⟨n, by rw [hbb, hb], Nat.le_refl n⟩
  · rw [hb] at hnone
    cases hnone
  · rw [hb] at hk
    injection hk with hk
    subst hk
    exact ⟨n + 1, hbb, Nat.le_succ n⟩

/-- Over a whole run, an active counter stays active and never
decreases. -/
theorem run_sbd_mono (acts : List ℤ) : ∀ (env : Env) (rng : RNG) outs env' rng' (n : ℕ),
    env.steps_beyond_done = some n → run env rng acts = some (outs, env', rng') →
    ∃ m, env'.steps_beyond_done = some m ∧ n ≤ m := by
  induction acts with
  | nil =>
    intro env rng outs env' rng' n hb h
    unfold run at h
    simp only [Option.some.injEq, Prod.mk.injEq] at h
    exact ⟨n, by rw [← h.2.1]; exact hb, Nat.le_refl n⟩
  | cons a rest ih =>
    intro env rng outs env' rng' n hb h
    unfold run at h
    split at h
    · exact absurd h (by simp)
    · rename_i out hstep
      split at h
      · exact absurd h (by simp)
      · rename_i outs0 e r hrun
        simp only [Option.some.injEq, Prod.mk.injEq] at h
        obtain ⟨m0, hm0, hle0⟩ := step_sbd_mono env rng a out n hstep hb
        obtain ⟨m, hm, hle⟩ := ih out.env out.rng outs0 e r m0 hm0 hrun
        exact ⟨m, by rw [← h.2.1]; exact hm, Nat.le_trans hle0 hle⟩

/-! ### C9: parameter immutability -/

/-- C9 — Parameter immutability: no sequence of `step` calls and no
`reset` ever mutates the stored simulation parameters (masses, length,
`total_mass`, `polemass_length`, `force_mag`, gravity, frictions, eps
values are all fields of the one parameter block); the derived
`total_mass` and `polemass_length` are computed from the masses and the
length at construction. -/
theorem params_immutable (env : Env) (rng : RNG) :
    (∀ acts outs env' rng', run env rng acts = some (outs, env', rng') →
      env'.params = env.params) ∧
    (reset env rng).1.params = env.params ∧
    (∀ a out, step env rng a = .ok out → out.env.params = env.params) ∧
    (∀ u0, (mkParams u0).total_mass = (mkParams u0).masspole + (mkParams u0).masscart ∧
      (mkParams u0).polemass_length = (mkParams u0).masspole * (mkParams u0).length) :=
  ⟨fun acts outs env' rng' h => run_params_eq acts env rng outs env' rng' h,
    rfl,
    fun a out h => (step_ok_cases env rng a out h).1,
    fun _ => ⟨rfl, rfl⟩⟩

/-- Witness for C9: a concrete step call and a concrete reset both keep
the parameters. -/
theorem params_immutable_w :
    cOut.env.params = cEnv.params ∧ (reset cEnv cRng).1.params = cEnv.params :=
  ⟨(params_immutable cEnv cRng).2.2.1 1 cOut step_cEnv_eval,
    (params_immutable cEnv cRng).2.1⟩

/-! ### C10: the over-stepping counter is monotone between resets -/

/-- C10 — Monotone over-stepping counter: within any sequence of `step`
calls (no `reset` in between), once `steps_beyond_done` is an integer it
is never cleared back to the inactive value and never decreases; only
`reset` returns it to inactive. -/
theorem steps_beyond_done_monotone (env : Env) (rng : RNG) :
    (∀ acts outs env' rng' (n : ℕ), env.steps_beyond_done = some n →
      run env rng acts = some (outs, env', rng') →
      ∃ m, env'.steps_beyond_done = some m ∧ n ≤ m) ∧
    (∀ (a : ℤ) (out : StepOut) (n : ℕ), step env rng a = .ok out →
      env.steps_beyond_done = some n →
      ∃ m, out.env.steps_beyond_done = some m ∧ n ≤ m) ∧
    (reset env rng).1.steps_beyond_done = none :=
  ⟨fun acts outs env' rng' n hb h => run_sbd_mono acts env rng outs env' rng' n hb h,
    fun a out n h hb => step_sbd_mono env rng a out n h hb,
    rfl⟩

/-- Witness for C10 at a concrete already-done environment. -/
theorem steps_beyond_done_monotone_w :
    ∃ m, cOutD.env.steps_beyond_done = some m ∧ 0 ≤ m :=
  (steps_beyond_done_monotone cEnvDone cRng).2.1 1 cOutD 0 step_cEnvDone_eval rfl

/-! ### C2 (amended): the per-step reward law -/

/-- C2 (amended) — Reward law: the first step whose post-update state is
out of bounds returns reward `1.0` and activates the counter at `0`; a
later step (no reset) returns `0.0` and increments the counter by
exactly `1` iff its own post-update state is again out of bounds; since
`done` is recomputed from the post-update state on every call, a later
step whose post-update state re-enters the bounds returns reward `1.0`
and leaves the counter unchanged. -/
theorem reward_law_per_step (env : Env) (rng : RNG) (a : ℤ) (out : StepOut)
    (h : step env rng a = .ok out) :
    (¬out.done → out.reward = 1.0 ∧ out.env.steps_beyond_done = env.steps_beyond_done) ∧
    (out.done → env.steps_beyond_done = none →
      out.reward = 1.0 ∧ out.env.steps_beyond_done = some 0) ∧
    (∀ n : ℕ, out.done → env.steps_beyond_done = some n →
      out.reward = 0.0 ∧ out.env.steps_beyond_done = some (n + 1)) := by
  obtain ⟨-, hc⟩ := step_ok_cases env rng a out h
  rcases hc with ⟨hnd, hr, hbb⟩ | ⟨hd, hb, hr, hbb⟩ | ⟨k, hd, hb, hr, hbb⟩
  · exact ⟨fun _ => ⟨hr, hbb⟩, fun hdd _ => absurd hdd hnd, fun n hdd _ => absurd hdd hnd⟩
  · refine ⟨fun hnd => absurd hd hnd, fun _ _ => ⟨hr, hbb⟩, fun n _ hsome => ?_⟩
    rw [hb] at hsome
    cases hsome
  · refine ⟨fun hnd => absurd hd hnd, fun _ hnone => ?_, fun n _ hsome => ?_⟩
    · rw [hb] at hnone
      cases hnone
    · rw [hb] at hsome
      injection hsome with hsome
      subst hsome
      exact ⟨hr, hbb⟩

/-- Witness for C2 at the canonical non-terminal call. -/
theorem reward_law_per_step_w :
    cOut.reward = 1.0 ∧ cOut.env.steps_beyond_done = cEnv.steps_beyond_done :=
  (reward_law_per_step cEnv cRng 1 cOut step_cEnv_eval).1 cSt_not_done

/-! ### C1: seeding does not determine the trajectory

`seed()` (lines 55-57) seeds only `self.np_random`, but the three
per-step coefficient jitters of `step` (lines 67-70) are drawn from the
process-global `np.random.randn()`, which `seed()` leaves untouched.
Two runs below share the seeded stream (`seedS`), the construction, the
reset and the action sequence `[1]`, and differ only in the global
normal stream — yet they produce different post-step states. -/

/-- The seeded draw stream shared by both determinism trials: every raw
unit draw is `1/2` (interval midpoint) except the reset draw of the cart
velocity, which is `1` (so `x_dot = 0.05` and the cart-friction term is
active through `sign(x_dot)`). -/
noncomputable def seedS : ℕ → ℝ := fun n => if n = 2 then 1 else 1 / 2

/-- Global normal draws of trial A: all `0`. -/
noncomputable def globA : ℕ → ℝ := fun _ => 0

/-- Global normal draws of trial B: `1` for the first draw, else `0`. -/
noncomputable def globB : ℕ → ℝ := fun n => if n = 0 then 1 else 0

/-- One full trial: construct the engine on the seeded stream `seedS`,
reset, then issue the single action `1`. -/
noncomputable def trialRun (g : ℕ → ℝ) : Option (List StepOut × Env × RNG) :=
  let er := mkEnv ⟨seedS, g, 0, 0⟩
  let err := reset er.1 er.2
  run err.1 err.2.1 [1]

/-- The environment every trial reaches after construction and reset. -/
noncomputable def envTrial : Env :=
  ⟨mkParams (seedS 0),
    some (uniformDraw (-0.05) 0.05 (seedS 1), uniformDraw (-0.05) 0.05 (seedS 2),
      uniformDraw (-0.05) 0.05 (seedS 3), uniformDraw (-0.05) 0.05 (seedS 4)), none⟩

/-- The random sources after construction and reset in a trial. -/
noncomputable def rngTrial (g : ℕ → ℝ) : RNG := ⟨seedS, g, 5, 0⟩

theorem trialRun_unfold (g : ℕ → ℝ) : trialRun g = run envTrial (rngTrial g) [1] := rfl

theorem envTrial_state : envTrial.state = some (0, 0.05, 0, 0) := by
  norm_num [envTrial, uniformDraw, seedS, Prod.mk.injEq]

/-- Neither trial terminates on its single step. -/
theorem trial_not_done (g : ℕ → ℝ) :
    ¬doneProp envTrial.params (stepPost envTrial.params (rngTrial g) 0 0.05 0 0 1).1
      (stepPost envTrial.params (rngTrial g) 0 0.05 0 0 1).2.2.1 := by
  have h1 : (stepPost envTrial.params (rngTrial g) 0 0.05 0 0 1).1 = 0.001 := by
    norm_num [stepPost, envTrial, mkParams_tau]
  have h2 : (stepPost envTrial.params (rngTrial g) 0 0.05 0 0 1).2.2.1 = 0 := by
    norm_num [stepPost, envTrial, mkParams_tau]
  rw [h1, h2]
  show ¬doneProp (mkParams (seedS 0)) 0.001 0
  unfold doneProp
  rw [mkParams_x_threshold, mkParams_theta_threshold]
  push_neg
  exact ⟨by norm_num, by norm_num, by linarith [Real.pi_pos], by linarith [Real.pi_pos]⟩

/-- The full output of the single step of a trial. -/
noncomputable def outTrial (g : ℕ → ℝ) : StepOut :=
  { env := { envTrial with state := some (stepPost envTrial.params (rngTrial g) 0 0.05 0 0 1) },
    rng := rngStep (rngTrial g),
    obs := stepPost envTrial.params (rngTrial g) 0 0.05 0 0 1,
    reward := 1.0,
    done := doneProp envTrial.params (stepPost envTrial.params (rngTrial g) 0 0.05 0 0 1).1
      (stepPost envTrial.params (rngTrial g) 0 0.05 0 0 1).2.2.1 }

theorem trial_step_eval (g : ℕ → ℝ) : step envTrial (rngTrial g) 1 = .ok (outTrial g) :=
  step_eval_not_done envTrial (rngTrial g) 1 0 0.05 0 0 (Or.inr rfl) envTrial_state
    (trial_not_done g)

theorem trialRun_eval (g : ℕ → ℝ) :
    trialRun g = some ([outTrial g], (outTrial g).env, (outTrial g).rng) := by
  rw [trialRun_unfold]
  simp only [run, trial_step_eval]

/-- C1 — Determinism under the seed is FALSE of the code: two runs whose
seeded source yields the very same draws (same seed), issuing the same
single action from reset, end in different states, because the three
per-step normal jitters come from the process-global generator that
`seed()` never seeds.  The runs differ only in that unseeded global
stream, and the resulting cart velocities differ. -/
theorem same_seed_trajectories_differ :
    ∃ oA oB eA rA eB rB,
      trialRun globA = some ([oA], eA, rA) ∧
      trialRun globB = some ([oB], eB, rB) ∧
      oA.obs.2.1 ≠ oB.obs.2.1 := by
  refine ⟨outTrial globA, outTrial globB, _, _, _, _, trialRun_eval globA,
    trialRun_eval globB, ?_⟩
  have hsgn : Real.sign (0.05 : ℝ) = 1 := Real.sign_of_pos (by norm_num)
  show (stepPost envTrial.params (rngTrial globA) 0 0.05 0 0 1).2.1 ≠
    (stepPost envTrial.params (rngTrial globB) 0 0.05 0 0 1).2.1
  norm_num [stepPost, tempOf, thetaaccOf, xaccOf, uniformDraw, envTrial, rngTrial,
    seedS, globA, globB, mkParams_tau, mkParams_force_mag, mkParams_gravity,
    mkParams_masspole, mkParams_total_mass, mkParams_length, mkParams_polemass_length,
    mkParams_frictioncart, mkParams_frictionpole, mkParams_gravity_eps,
    mkParams_frictioncart_eps, mkParams_frictionpole_eps, hsgn,
    Real.cos_zero, Real.sin_zero]
  rw [Real.sign_of_pos (show (0 : ℝ) < 1 / 20 by norm_num)]
  norm_num

/-! ### C2: the claimed "reward 0.0 forever after done" law fails

`done` is recomputed from the current post-update state on every call,
and nothing stops the state from re-entering the thresholds: a cart that
crossed `x_threshold` with inward velocity comes back.  The trajectory
below terminates at step 1 (reward `1.0`, counter set to `0`), yet step
2's post-update state is inside all thresholds again, so step 2 returns
reward `1.0` — not `0.0` — and leaves `steps_beyond_done` at `0`. -/

/-- Random sources of the counterexample trajectory: seeded draws all
midpoint (zero angle noise); global normal draws `3·10⁶` for the step-1
cart-friction jitter and `10¹⁰` for the step-1 pole-friction jitter
(standard-normal draws are unbounded reals), everything else `0`.  These
make step 1 brake the cart hard while keeping the angle small. -/
noncomputable def cexRng : RNG :=
  ⟨fun _ => 1 / 2, fun n => if n = 0 then 3000000 else if n = 2 then 10000000000 else 0,
    0, 0⟩

/-- The pre-terminal configuration: cart just inside the threshold with
high outward velocity, small angular motion, counter inactive. -/
noncomputable def cexEnv : Env := ⟨cParams, some (2.399, 10, 0, 0.01), none⟩

/-- Post-update state of step 1 of the counterexample. -/
noncomputable def cexSt1 : ℝ × ℝ × ℝ × ℝ := stepPost cParams cexRng 2.399 10 0 0.01 1

/-- Step 1 crosses the `x` threshold: `x = 2.399 + 0.02·10 = 2.599`. -/
theorem cexSt1_done : doneProp cParams cexSt1.1 cexSt1.2.2.1 := by
  have h1 : cexSt1.1 = 2.599 := by
    norm_num [cexSt1, stepPost, cParams, mkParams_tau]
  rw [h1]
  unfold cParams doneProp
  rw [mkParams_x_threshold]
  exact Or.inr (Or.inl (by norm_num))

/-- The full output of step 1 of the counterexample. -/
noncomputable def cexOut1 : StepOut :=
  { env := ⟨cParams, some cexSt1, some 0⟩, rng := rngStep cexRng, obs := cexSt1,
    reward := 1.0, done := doneProp cParams cexSt1.1 cexSt1.2.2.1 }

theorem cex_step1 : step cexEnv cexRng 1 = .ok cexOut1 :=
  step_eval_first_done cexEnv cexRng 1 2.399 10 0 0.01 (Or.inr rfl) rfl rfl cexSt1_done

/-- Post-update state of step 2 of the counterexample. -/
noncomputable def cexSt2 : ℝ × ℝ × ℝ × ℝ :=
  stepPost cParams (rngStep cexRng) cexSt1.1 cexSt1.2.1 cexSt1.2.2.1 cexSt1.2.2.2 1

/-- Step 2's post-update state is inside every threshold again: the
braked cart is back at `x ≈ 2.37` and the angle is `≈ 0.0489`. -/
theorem cexSt2_not_done : ¬doneProp cParams cexSt2.1 cexSt2.2.2.1 := by
  have hsgn : Real.sign (10 : ℝ) = 1 := Real.sign_of_pos (by norm_num)
  have hx0 : -2.4 ≤ cexSt2.1 := by
    norm_num [cexSt2, cexSt1, stepPost, tempOf, thetaaccOf, xaccOf, uniformDraw, cexRng,
      rngStep, cParams, mkParams_tau, mkParams_force_mag, mkParams_gravity,
      mkParams_masspole, mkParams_total_mass, mkParams_length, mkParams_polemass_length,
      mkParams_frictioncart, mkParams_frictionpole, mkParams_gravity_eps,
      mkParams_frictioncart_eps, mkParams_frictionpole_eps, hsgn,
      Real.cos_zero, Real.sin_zero]
  have hx1 : cexSt2.1 ≤ 2.4 := by
    norm_num [cexSt2, cexSt1, stepPost, tempOf, thetaaccOf, xaccOf, uniformDraw, cexRng,
      rngStep, cParams, mkParams_tau, mkParams_force_mag, mkParams_gravity,
      mkParams_masspole, mkParams_total_mass, mkParams_length, mkParams_polemass_length,
      mkParams_frictioncart, mkParams_frictionpole, mkParams_gravity_eps,
      mkParams_frictioncart_eps, mkParams_frictionpole_eps, hsgn,
      Real.cos_zero, Real.sin_zero]
  have ht0 : 0 ≤ cexSt2.2.2.1 := by
    norm_num [cexSt2, cexSt1, stepPost, tempOf, thetaaccOf, xaccOf, uniformDraw, cexRng,
      rngStep, cParams, mkParams_tau, mkParams_force_mag, mkParams_gravity,
      mkParams_masspole, mkParams_total_mass, mkParams_length, mkParams_polemass_length,
      mkParams_frictioncart, mkParams_frictionpole, mkParams_gravity_eps,
      mkParams_frictioncart_eps, mkParams_frictionpole_eps, hsgn,
      Real.cos_zero, Real.sin_zero]
  have ht1 : cexSt2.2.2.1 ≤ 0.05 := by
    norm_num [cexSt2, cexSt1, stepPost, tempOf, thetaaccOf, xaccOf, uniformDraw, cexRng,
      rngStep, cParams, mkParams_tau, mkParams_force_mag, mkParams_gravity,
      mkParams_masspole, mkParams_total_mass, mkParams_length, mkParams_polemass_length,
      mkParams_frictioncart, mkParams_frictionpole, mkParams_gravity_eps,
      mkParams_frictioncart_eps, mkParams_frictionpole_eps, hsgn,
      Real.cos_zero, Real.sin_zero]
  have hpi : (3.141592 : ℝ) < Real.pi := Real.pi_gt_d6
  unfold cParams doneProp
  rw [mkParams_x_threshold, mkParams_theta_threshold]
  push_neg
  exact ⟨by linarith, by linarith, by linarith, by linarith⟩

/-- The full output of step 2 of the counterexample. -/
noncomputable def cexOut2 : StepOut :=
  { env := ⟨cParams, some cexSt2, some 0⟩, rng := rngStep (rngStep cexRng),
    obs := cexSt2, reward := 1.0, done := doneProp cParams cexSt2.1 cexSt2.2.2.1 }

theorem cex_step2 : step cexOut1.env cexOut1.rng 1 = .ok cexOut2 :=
  step_eval_not_done cexOut1.env cexOut1.rng 1 cexSt1.1 cexSt1.2.1 cexSt1.2.2.1
    cexSt1.2.2.2 (Or.inr rfl) rfl cexSt2_not_done

/-- C2 counterexample — the claim "done first becomes true at step k ⟹
every later step returns reward 0.0 and increments steps_beyond_done by
1" is false on the code: in this two-step trajectory (counter inactive
at the start, as after a reset), done first becomes true at step 1 with
reward 1.0, yet step 2 returns reward 1.0 and leaves the counter at 0,
because its post-update state is back inside the thresholds. -/
theorem reward_after_done_cex :
    ∃ o1 o2 envF rngF,
      run cexEnv cexRng [1, 1] = some ([o1, o2], envF, rngF) ∧
      o1.done ∧ o1.reward = 1.0 ∧ o1.env.steps_beyond_done = some 0 ∧
      o2.reward = 1.0 ∧ ¬o2.done ∧ envF.steps_beyond_done = some 0 := by
  refine ⟨cexOut1, cexOut2, cexOut2.env, cexOut2.rng, ?_, cexSt1_done, rfl, rfl, rfl,
    cexSt2_not_done, rfl⟩
  simp only [run, cex_step1, cex_step2]

end CartPole
